import Mathlib

/-!
Shallow embedding of the real-time capture-to-transcript pipeline of the
vox repository: the energy-based voice activity detector (the audio
package's VAD), the capture configuration tiers and the malgo capturer
(internal/audio/capture.go and internal/audio/buffer.go), the byte ring
buffer (internal/audio/buffer.go), the continuous transcription loop
(internal/app/transcriber.go together with the MCP transcription
service), and the push-to-talk session handler (the app package's
PTTTranscriber).

Modelling conventions: Go float64 values are modelled as exact rationals
(decimal literals read as the rationals they denote); Go byte slices as
lists of naturals taken modulo 256; Go int counters as ℤ or ℕ as noted
at each definition.  The recognition engine is an external collaborator
(consumed through the stt.Engine interface) and is modelled as an oracle
supplying one reply per call.  Wall-clock timestamps are not modelled.
-/

/-- Go expression `int16(lo) | int16(hi)<<8` from calculateEnergy: the
two's-complement signed 16-bit value denoted by the unsigned value `x`
(the shift of the high byte wraps modulo 2^16 and the low byte occupies
the vacated bits, so the combination equals `lo + 256*hi` reduced to a
signed 16-bit integer). -/
def toInt16 (x : ℕ) : ℤ :=
  (((x % 65536 + 32768) % 65536 : ℕ) : ℤ) - 32768

/-- The 16-bit little-endian samples read by calculateEnergy's loop
(`sample := int16(data[i*2]) | int16(data[i*2+1])<<8` for
`i < len(data)/2`); a trailing odd byte is ignored, as in the source. -/
def samplesOf : List ℕ → List ℤ
  | lo :: hi :: rest => toInt16 (lo % 256 + 256 * (hi % 256)) :: samplesOf rest
  | _ => []

/-- Squared RMS energy of a frame.  The source's calculateEnergy returns
`math.Sqrt(sum / sampleCount)` where `sum` accumulates
`normalized * normalized` with `normalized = sample / 32768.0`, and
returns 0 for an empty frame.  ℚ is not closed under square roots, so we
model the radicand `sum / sampleCount` and place the square root at the
single comparison site; `frameHasSpeech_iff_sqrt` relates this to the
real-valued energy. -/
def energySq (data : List ℕ) : ℚ :=
  if (samplesOf data).length = 0 then 0
  else (((samplesOf data).map fun s => ((s : ℚ) / 32768) * ((s : ℚ) / 32768)).sum)
        / ((samplesOf data).length : ℚ)

/-- Frame classification from VAD.ProcessFrame:
`frameHasSpeech := energy > v.config.EnergyThreshold` with
`energy = math.Sqrt(energySq data)`.  For a rational threshold `t`,
`Real.sqrt e > t ↔ t < 0 ∨ t * t < e` whenever `0 ≤ e`, which is the
decidable form used here (the equivalence with the source's comparison
is proved in `frameHasSpeech_iff_sqrt`). -/
def frameHasSpeech (data : List ℕ) (threshold : ℚ) : Bool :=
  decide (threshold < 0 ∨ threshold * threshold < energySq data)

/-- VADConfig from the audio package.  EnergyThreshold is a float64
(modelled as ℚ); the two frame counts are Go ints (modelled as ℤ). -/
structure VADConfig where
  EnergyThreshold : ℚ
  SilenceFrames : ℤ
  SpeechFrames : ℤ
deriving DecidableEq

/-- DefaultVADConfig from the audio package. -/
def DefaultVADConfig : VADConfig :=
  { EnergyThreshold := 1/100, SilenceFrames := 33 * 8, SpeechFrames := 3 }

/-- VAD state: configuration, the two run-length counters, the speaking
flag and the last classification, exactly the fields of the Go struct. -/
structure VAD where
  config : VADConfig
  silenceFrameCount : ℤ
  speechFrameCount : ℤ
  isSpeaking : Bool
  lastSpeechDetection : Bool
deriving DecidableEq

/-- NewVAD: only config and isSpeaking are set explicitly; the remaining
fields take Go's zero values. -/
def NewVAD (config : VADConfig) : VAD :=
  { config := config, silenceFrameCount := 0, speechFrameCount := 0,
    isSpeaking := false, lastSpeechDetection := false }

/-- The three booleans returned by VAD.ProcessFrame:
(isSpeechActive, speechStarted, speechEnded). -/
structure VADOutput where
  isSpeakingNow : Bool
  speechStarted : Bool
  speechEnded : Bool
deriving DecidableEq

/-- VAD.ProcessFrame: classify the frame by energy, bump the matching
run-length counter and zero the other, then apply the hysteresis
transition; returns the updated state and the three booleans.  The
source increments the counter in place and then compares it against the
configured bound, so the incremented value `v.speechFrameCount + 1`
(resp. `v.silenceFrameCount + 1`) appears inlined in the comparison and
in the updated record. -/
def VAD.ProcessFrame (v : VAD) (audioData : List ℕ) : VAD × VADOutput :=
  if frameHasSpeech audioData v.config.EnergyThreshold then
    if v.isSpeaking = false ∧ v.config.SpeechFrames ≤ v.speechFrameCount + 1 then
      ({ v with speechFrameCount := v.speechFrameCount + 1, silenceFrameCount := 0,
                lastSpeechDetection := true, isSpeaking := true },
       ⟨true, true, false⟩)
    else
      ({ v with speechFrameCount := v.speechFrameCount + 1, silenceFrameCount := 0,
                lastSpeechDetection := true },
       ⟨v.isSpeaking, false, false⟩)
  else
    if v.isSpeaking = true ∧ v.config.SilenceFrames ≤ v.silenceFrameCount + 1 then
      ({ v with silenceFrameCount := v.silenceFrameCount + 1, speechFrameCount := 0,
                lastSpeechDetection := false, isSpeaking := false },
       ⟨false, false, true⟩)
    else
      ({ v with silenceFrameCount := v.silenceFrameCount + 1, speechFrameCount := 0,
                lastSpeechDetection := false },
       ⟨v.isSpeaking, false, false⟩)

/-- VAD.Reset: zero both counters and clear both flags. -/
def VAD.Reset (v : VAD) : VAD :=
  { v with silenceFrameCount := 0, speechFrameCount := 0,
           isSpeaking := false, lastSpeechDetection := false }

/-- Feeding a list of frames through the VAD, collecting the per-frame
outputs (the consumer loop calls ProcessFrame once per received frame,
in arrival order). -/
def runVAD (v : VAD) : List (List ℕ) → VAD × List VADOutput
  | [] => (v, [])
  | f :: rest =>
    let r := v.ProcessFrame f
    let t := runVAD r.1 rest
    (t.1, r.2 :: t.2)

/-- Length of the maximal suffix of `l` all of whose elements satisfy
`p` (the run of consecutive matching frames ending at the last frame). -/
def trailingCount {α : Type} (p : α → Bool) (l : List α) : ℕ :=
  (l.reverse.takeWhile p).length

/-- Classification of a frame under a given configuration, as computed
inside VAD.ProcessFrame. -/
def classifySpeech (cfg : VADConfig) (data : List ℕ) : Bool :=
  frameHasSpeech data cfg.EnergyThreshold

theorem energySq_nonneg (data : List ℕ) : 0 ≤ energySq data := by
  unfold energySq
  split
  · exact le_refl 0
  · apply div_nonneg
    · apply List.sum_nonneg
      intro x hx
      simp only [List.mem_map] at hx
      obtain ⟨s, _, rfl⟩ := hx
      exact mul_self_nonneg _
    · positivity

/-- C9: VAD counter exclusivity invariant.  After every ProcessFrame
call (from any state whatsoever), after every Reset, and in the freshly
constructed VAD, at least one of the two run-length counters is zero: a
speech frame zeroes the silence counter and a silence frame zeroes the
speech counter, so the two counters are never simultaneously positive in
any reachable state. -/
theorem vad_counter_exclusivity :
    (∀ (v : VAD) (data : List ℕ),
        (v.ProcessFrame data).1.speechFrameCount = 0 ∨
        (v.ProcessFrame data).1.silenceFrameCount = 0) ∧
    (∀ v : VAD, (v.Reset).speechFrameCount = 0 ∧ (v.Reset).silenceFrameCount = 0) ∧
    (∀ cfg : VADConfig, (NewVAD cfg).speechFrameCount = 0 ∧ (NewVAD cfg).silenceFrameCount = 0) := by
  refine ⟨?_, ?_, ?_⟩
  · intro v data
    simp only [VAD.ProcessFrame]
    split
    · split <;> simp
    · split <;> simp
  · intro v; exact ⟨rfl, rfl⟩
  · intro cfg; exact ⟨rfl, rfl⟩


theorem runVAD_append_fst (v : VAD) (l1 l2 : List (List ℕ)) :
    (runVAD v (l1 ++ l2)).1 = (runVAD (runVAD v l1).1 l2).1 := by
  induction l1 generalizing v with
  | nil => rfl
  | cons f rest ih => exact ih (v.ProcessFrame f).1

theorem trailingCount_append {α : Type} (p : α → Bool) (l : List α) (a : α) :
    trailingCount p (l ++ [a]) =
      if p a = true then trailingCount p l + 1 else 0 := by
  simp only [trailingCount, List.reverse_append, List.reverse_singleton,
    List.singleton_append, List.takeWhile_cons]
  split <;> simp

/-- State characterization of the VAD after any frame sequence from the
initial state: the configuration is unchanged, each counter equals the
length of the trailing run of frames of its classification, and the
hysteresis bounds hold (while silent the speech counter has not yet
reached SpeechFrames; while speaking the silence counter has not yet
reached SilenceFrames). -/
theorem vad_run_invariant (cfg : VADConfig) (hS : 1 ≤ cfg.SpeechFrames)
    (hN : 1 ≤ cfg.SilenceFrames) (frames : List (List ℕ)) :
    (runVAD (NewVAD cfg) frames).1.config = cfg ∧
    (runVAD (NewVAD cfg) frames).1.speechFrameCount =
      (trailingCount (classifySpeech cfg) frames : ℤ) ∧
    (runVAD (NewVAD cfg) frames).1.silenceFrameCount =
      (trailingCount (fun d => ! classifySpeech cfg d) frames : ℤ) ∧
    ((runVAD (NewVAD cfg) frames).1.isSpeaking = false →
      (runVAD (NewVAD cfg) frames).1.speechFrameCount < cfg.SpeechFrames) ∧
    ((runVAD (NewVAD cfg) frames).1.isSpeaking = true →
      (runVAD (NewVAD cfg) frames).1.silenceFrameCount < cfg.SilenceFrames) := by
  induction frames using List.reverseRecOn with
  | nil =>
    refine ⟨rfl, by simp [runVAD, NewVAD, trailingCount],
      by simp [runVAD, NewVAD, trailingCount], ?_, ?_⟩
    · intro _
      show (0 : ℤ) < cfg.SpeechFrames
      omega
    · intro h
      exact absurd h (by simp [runVAD, NewVAD])
  | append_singleton l f ih =>
    obtain ⟨hcfg, hsp, hsi, hbs, hbn⟩ := ih
    rw [runVAD_append_fst]
    simp only [runVAD]
    rw [trailingCount_append, trailingCount_append]
    simp only [VAD.ProcessFrame, hcfg]
    by_cases hc : frameHasSpeech f cfg.EnergyThreshold = true
    · rw [if_pos hc, if_pos (show classifySpeech cfg f = true from hc),
        if_neg (show ¬((fun d => ! classifySpeech cfg d) f = true) from by
          simp [classifySpeech, hc])]
      split
      · refine ⟨by simp, ?_, by simp, ?_, ?_⟩
        · simp only [hsp]
          push_cast
          ring
        · intro h
          simp at h
        · intro _
          show (0 : ℤ) < cfg.SilenceFrames
          omega
      · rename_i hcond
        refine ⟨by simp, ?_, by simp, ?_, ?_⟩
        · simp only [hsp]
          push_cast
          ring
        · intro h
          simp only [not_and, not_le] at hcond
          have h2 := hcond (by simpa using h)
          show (runVAD (NewVAD cfg) l).1.speechFrameCount + 1 < cfg.SpeechFrames
          omega
        · intro h
          have h3 := hbn (by simpa using h)
          show (0 : ℤ) < cfg.SilenceFrames
          omega
    · rw [if_neg hc, if_neg (show ¬(classifySpeech cfg f = true) from hc),
        if_pos (show ((fun d => ! classifySpeech cfg d) f = true) from by
          simp [classifySpeech]
          exact Bool.not_eq_true _ ▸ (by simpa using hc))]
      split
      · refine ⟨by simp, by simp, ?_, ?_, ?_⟩
        · simp only [hsi]
          push_cast
          ring
        · intro _
          show (0 : ℤ) < cfg.SpeechFrames
          omega
        · intro h
          simp at h
      · rename_i hcond
        refine ⟨by simp, by simp, ?_, ?_, ?_⟩
        · simp only [hsi]
          push_cast
          ring
        · intro _
          show (0 : ℤ) < cfg.SpeechFrames
          omega
        · intro h
          simp only [not_and, not_le] at hcond
          have h2 := hcond (by simpa using h)
          show (runVAD (NewVAD cfg) l).1.silenceFrameCount + 1 < cfg.SilenceFrames
          omega

/-- Bridge between the decidable rational classification and the
source's real-valued comparison `math.Sqrt(sum/sampleCount) > threshold`:
the Boolean `frameHasSpeech` holds exactly when the (real) RMS energy
strictly exceeds the threshold. -/
theorem frameHasSpeech_iff_sqrt (data : List ℕ) (t : ℚ) :
    frameHasSpeech data t = true ↔
      (t : ℝ) < Real.sqrt ((energySq data : ℚ) : ℝ) := by
  have he : (0 : ℝ) ≤ ((energySq data : ℚ) : ℝ) := by
    exact_mod_cast energySq_nonneg data
  simp only [frameHasSpeech, decide_eq_true_eq]
  constructor
  · rintro (ht | ht)
    · exact lt_of_lt_of_le (by exact_mod_cast ht) (Real.sqrt_nonneg _)
    · rcases lt_or_le t 0 with h | h
      · exact lt_of_lt_of_le (by exact_mod_cast h) (Real.sqrt_nonneg _)
      · rw [Real.lt_sqrt (by exact_mod_cast h)]
        have : ((t * t : ℚ) : ℝ) < ((energySq data : ℚ) : ℝ) := by exact_mod_cast ht
        calc (t : ℝ) ^ 2 = ((t * t : ℚ) : ℝ) := by push_cast; ring
          _ < _ := this
  · intro h
    rcases lt_or_le t 0 with h0 | h0
    · exact Or.inl h0
    · refine Or.inr ?_
      rw [Real.lt_sqrt (by exact_mod_cast h0)] at h
      have : ((t * t : ℚ) : ℝ) < ((energySq data : ℚ) : ℝ) := by
        calc ((t * t : ℚ) : ℝ) = (t : ℝ) ^ 2 := by push_cast; ring
          _ < _ := h
      exact_mod_cast this

/-- C2: VAD hysteresis.  Starting from the initial Silent state with
both run-length counters at zero, for every frame sequence and every
next frame, ProcessFrame reports speechJustStarted exactly when the VAD
was not yet speaking and the trailing run of consecutive
speech-classified frames (ending at the processed frame) has length
exactly SpeechFrames — so any shorter run never triggers it;
symmetrically, speechJustEnded is reported exactly when the VAD was
speaking and the trailing run of consecutive silence-classified frames
has length exactly SilenceFrames. -/
theorem vad_hysteresis (cfg : VADConfig) (hS : 1 ≤ cfg.SpeechFrames)
    (hN : 1 ≤ cfg.SilenceFrames) (frames : List (List ℕ)) (f : List ℕ) :
    ((((runVAD (NewVAD cfg) frames).1.ProcessFrame f).2.speechStarted = true ↔
        (runVAD (NewVAD cfg) frames).1.isSpeaking = false ∧
        (trailingCount (classifySpeech cfg) (frames ++ [f]) : ℤ) = cfg.SpeechFrames) ∧
     (((runVAD (NewVAD cfg) frames).1.ProcessFrame f).2.speechEnded = true ↔
        (runVAD (NewVAD cfg) frames).1.isSpeaking = true ∧
        (trailingCount (fun d => ! classifySpeech cfg d) (frames ++ [f]) : ℤ) =
          cfg.SilenceFrames)) := by
  obtain ⟨hcfg, hsp, hsi, hbs, hbn⟩ := vad_run_invariant cfg hS hN frames
  rw [trailingCount_append, trailingCount_append]
  simp only [VAD.ProcessFrame, hcfg]
  by_cases hc : frameHasSpeech f cfg.EnergyThreshold = true
  · rw [if_pos hc, if_pos (show classifySpeech cfg f = true from hc),
      if_neg (show ¬((fun d => ! classifySpeech cfg d) f = true) from by
        simp [classifySpeech, hc])]
    constructor
    · split
      · rename_i hcond
        refine iff_of_true rfl ⟨hcond.1, ?_⟩
        have hb := hbs hcond.1
        have h2 := hcond.2
        rw [hsp] at hb h2
        push_cast
        omega
      · rename_i hcond
        refine iff_of_false (by simp) ?_
        rintro ⟨h1, h2⟩
        simp only [not_and, not_le] at hcond
        have h3 := hcond h1
        rw [hsp] at h3
        push_cast at h2
        omega
    · split <;>
        exact iff_of_false (by simp)
          (by rintro ⟨h1, h2⟩; push_cast at h2; omega)
  · rw [if_neg hc, if_neg (show ¬(classifySpeech cfg f = true) from hc),
      if_pos (show ((fun d => ! classifySpeech cfg d) f = true) from by
        simp only [classifySpeech, Bool.not_eq_true']
        exact Bool.not_eq_true _ ▸ (by simpa using hc))]
    constructor
    · split <;>
        exact iff_of_false (by simp)
          (by rintro ⟨h1, h2⟩; push_cast at h2; omega)
    · split
      · rename_i hcond
        refine iff_of_true rfl ⟨hcond.1, ?_⟩
        have hb := hbn hcond.1
        have h2 := hcond.2
        rw [hsi] at hb h2
        push_cast
        omega
      · rename_i hcond
        refine iff_of_false (by simp) ?_
        rintro ⟨h1, h2⟩
        simp only [not_and, not_le] at hcond
        have h3 := hcond h1
        rw [hsi] at h3
        push_cast at h2
        omega

/-- Concrete configuration used by witnesses: threshold 1/100 with both
hysteresis counts set to 2. -/
def witnessCfg : VADConfig :=
  { EnergyThreshold := 1/100, SilenceFrames := 2, SpeechFrames := 2 }

/-- Witness for `vad_hysteresis`: with SpeechFrames = 2, a second
consecutive loud frame (one 16-bit sample of value 16384, energy 1/2,
above the 1/100 threshold) triggers speechJustStarted. -/
theorem vad_hysteresis_witness :
    1 ≤ witnessCfg.SpeechFrames ∧ 1 ≤ witnessCfg.SilenceFrames ∧
    ((((runVAD (NewVAD witnessCfg) [[0, 64]]).1.ProcessFrame [0, 64]).2.speechStarted = true ↔
        (runVAD (NewVAD witnessCfg) [[0, 64]]).1.isSpeaking = false ∧
        (trailingCount (classifySpeech witnessCfg) ([[0, 64]] ++ [[0, 64]]) : ℤ) =
          witnessCfg.SpeechFrames) ∧
     (((runVAD (NewVAD witnessCfg) [[0, 64]]).1.ProcessFrame [0, 64]).2.speechEnded = true ↔
        (runVAD (NewVAD witnessCfg) [[0, 64]]).1.isSpeaking = true ∧
        (trailingCount (fun d => ! classifySpeech witnessCfg d) ([[0, 64]] ++ [[0, 64]]) : ℤ) =
          witnessCfg.SilenceFrames)) :=
  ⟨by decide, by decide,
    vad_hysteresis witnessCfg (by decide) (by decide) [[0, 64]] [0, 64]⟩

/-- Go's `int(x)` conversion applied to a float64 truncates toward
zero. -/
def goTrunc (q : ℚ) : ℤ := if 0 ≤ q then ⌊q⌋ else ⌈q⌉

/-- VAD configuration built by Transcriber.Run when VAD is enabled:
start from DefaultVADConfig, overwrite the threshold, then set
`SilenceFrames = int(VADSilenceDelay * framesPerSecond)` with
`framesPerSecond := 33.33` (the float64 literal, modelled as the exact
rational 3333/100). -/
def transcriberVADConfig (threshold silenceDelay : ℚ) : VADConfig :=
  { DefaultVADConfig with
      EnergyThreshold := threshold,
      SilenceFrames := goTrunc (silenceDelay * (3333/100)) }

/-- VAD configuration built by TranscriptionService.TranscribeAudio (the
MCP variant): the same formula
`SilenceFrames = int(params.VADSilenceDelay * 33.33)`. -/
def mcpVADConfig (threshold silenceDelay : ℚ) : VADConfig :=
  { DefaultVADConfig with
      EnergyThreshold := threshold,
      SilenceFrames := goTrunc (silenceDelay * (3333/100)) }

/-- Conversion as worded by the spec: divide the delay by the frame
duration (frame size in samples over sample rate, 480/16000 = 0.03 s)
and truncate to an integer frame count. -/
def specSilenceFrames (silenceDelay : ℚ) : ℤ :=
  goTrunc (silenceDelay / (480/16000))

/-- Counterexample to C3 as stated: at silence delay 3 s the code's
conversion `int(3 * 33.33)` yields 99 frames while the spec's
`trunc(3 / 0.03)` yields 100, so the configured SilenceFrames does not
equal trunc(d / 0.03) for every non-negative d. -/
theorem silence_delay_conversion_counterexample :
    (transcriberVADConfig (1/100) 3).SilenceFrames = 99 ∧
    specSilenceFrames 3 = 100 ∧
    (transcriberVADConfig (1/100) 3).SilenceFrames ≠ specSilenceFrames 3 := by
  have h1 : (transcriberVADConfig (1/100) 3).SilenceFrames = 99 := by
    show goTrunc ((3 : ℚ) * (3333/100)) = 99
    rw [goTrunc, if_pos (by norm_num)]
    rw [show (3 : ℚ) * (3333/100) = 9999/100 by norm_num]
    rw [Int.floor_eq_iff]
    norm_num
  have h2 : specSilenceFrames 3 = 100 := by
    rw [specSilenceFrames, goTrunc, if_pos (by norm_num)]
    rw [show (3 : ℚ) / (480/16000) = 100 by norm_num]
    norm_num
  exact ⟨h1, h2, by rw [h1, h2]; norm_num⟩

/-- C3 amended: both orchestrator variants derive SilenceFrames from the
user-facing silence delay d by multiplying by the approximate frame rate
33.33 frames per second and truncating, SilenceFrames = trunc(d * 33.33);
this never exceeds the spec's trunc(d / 0.03) = trunc(d * 100/3), but
differs from it for some delays (e.g. d = 3, see the counterexample). -/
theorem silence_delay_conversion (threshold d : ℚ) (hd : 0 ≤ d) :
    (transcriberVADConfig threshold d).SilenceFrames = ⌊d * (3333/100)⌋ ∧
    (mcpVADConfig threshold d).SilenceFrames =
      (transcriberVADConfig threshold d).SilenceFrames ∧
    (transcriberVADConfig threshold d).SilenceFrames ≤ specSilenceFrames d := by
  have hnn : (0 : ℚ) ≤ d * (3333/100) := by positivity
  have hnn2 : (0 : ℚ) ≤ d / (480/16000) := by positivity
  refine ⟨?_, rfl, ?_⟩
  · show goTrunc (d * (3333/100)) = ⌊d * (3333/100)⌋
    rw [goTrunc, if_pos hnn]
  · show goTrunc (d * (3333/100)) ≤ specSilenceFrames d
    rw [specSilenceFrames, goTrunc, goTrunc, if_pos hnn, if_pos hnn2]
    apply Int.floor_le_floor
    have heq : d / (480/16000) = d * (100/3) := by ring
    rw [heq]
    exact mul_le_mul_of_nonneg_left (by norm_num : (3333/100 : ℚ) ≤ 100/3) hd

/-- Witness for `silence_delay_conversion` at threshold 1/100 and
silence delay 3 s. -/
theorem silence_delay_conversion_witness :
    (0 : ℚ) ≤ 3 ∧
    ((transcriberVADConfig (1/100) 3).SilenceFrames = ⌊(3 : ℚ) * (3333/100)⌋ ∧
     (mcpVADConfig (1/100) 3).SilenceFrames =
       (transcriberVADConfig (1/100) 3).SilenceFrames ∧
     (transcriberVADConfig (1/100) 3).SilenceFrames ≤ specSilenceFrames 3) :=
  ⟨by norm_num, silence_delay_conversion (1/100) 3 (by norm_num)⟩

/-- C4 amended: the classification inside ProcessFrame uses a strict
inequality — a frame counts as speech exactly when its RMS energy
strictly exceeds EnergyThreshold; consequently a frame whose energy
equals the threshold exactly is classified as silence, not speech. -/
theorem vad_threshold_strict (data : List ℕ) (t : ℚ) :
    (frameHasSpeech data t = true ↔
      (t : ℝ) < Real.sqrt ((energySq data : ℚ) : ℝ)) ∧
    ((t : ℝ) = Real.sqrt ((energySq data : ℚ) : ℝ) →
      frameHasSpeech data t = false) := by
  refine ⟨frameHasSpeech_iff_sqrt data t, ?_⟩
  intro heq
  rcases h : frameHasSpeech data t with _ | _
  · rfl
  · exact absurd ((frameHasSpeech_iff_sqrt data t).1 h) (by rw [← heq]; exact lt_irrefl _)

/-- Counterexample to C4 as stated: the frame [0, 64] holds the single
16-bit sample 16384, whose RMS energy is exactly 1/2; with
EnergyThreshold = 1/2 the frame's energy equals the threshold exactly,
yet frameHasSpeech is false and ProcessFrame takes the silence branch
(the silence run-length counter is incremented), i.e. the frame is
classified as silence rather than speech. -/
theorem vad_threshold_equality_counterexample :
    Real.sqrt ((energySq [0, 64] : ℚ) : ℝ) = (((1:ℚ)/2 : ℚ) : ℝ) ∧
    frameHasSpeech [0, 64] (1/2) = false ∧
    ((NewVAD { EnergyThreshold := 1/2, SilenceFrames := 2, SpeechFrames := 2 }).ProcessFrame
        [0, 64]).1.silenceFrameCount = 1 := by
  have he : energySq [0, 64] = 1/4 := by
    simp [energySq, samplesOf, toInt16]
    norm_num
  have h1 : Real.sqrt ((energySq [0, 64] : ℚ) : ℝ) = (((1:ℚ)/2 : ℚ) : ℝ) := by
    rw [he]
    push_cast
    rw [show (1/4 : ℝ) = (1/2 : ℝ)^2 by norm_num,
      Real.sqrt_sq (by norm_num : (0:ℝ) ≤ 1/2)]
  have h2 : frameHasSpeech [0, 64] (1/2) = false := by
    simp only [frameHasSpeech, he, decide_eq_false_iff_not]
    push_neg
    exact ⟨by norm_num, by norm_num⟩
  refine ⟨h1, h2, ?_⟩
  simp only [VAD.ProcessFrame, NewVAD]
  rw [if_neg (by simp only [h2]; exact Bool.false_ne_true)]
  rw [if_neg (by simp)]
  norm_num

/-- CaptureConfig (internal/audio/capture.go): sample rate, channel
count, bit depth, frames per period, channel capacity in samples, and
device identifier.  SampleBufferSize is a Go int (modelled as ℤ). -/
structure CaptureConfig where
  SampleRate : ℕ
  Channels : ℕ
  BitDepth : ℕ
  BufferFrames : ℕ
  SampleBufferSize : ℤ
  DeviceID : String
deriving DecidableEq

/-- DefaultConfig: the fast-model tier (50-sample buffer, ~1.5 s). -/
def DefaultConfig : CaptureConfig :=
  { SampleRate := 16000, Channels := 1, BitDepth := 16, BufferFrames := 480,
    SampleBufferSize := 50, DeviceID := "" }

/-- MediumModelConfig: the medium tier (150-sample buffer, ~4.5 s). -/
def MediumModelConfig : CaptureConfig :=
  { SampleRate := 16000, Channels := 1, BitDepth := 16, BufferFrames := 480,
    SampleBufferSize := 150, DeviceID := "" }

/-- LargeModelConfig: the slow tier (300-sample buffer, ~9 s). -/
def LargeModelConfig : CaptureConfig :=
  { SampleRate := 16000, Channels := 1, BitDepth := 16, BufferFrames := 480,
    SampleBufferSize := 300, DeviceID := "" }

/-- AudioSample: raw bytes plus frame count; the capture timestamp
(time.Now()) is not modelled. -/
structure AudioSample where
  Data : List ℕ
  Frames : ℕ
deriving DecidableEq

/-- MalgoCapturer state as relevant to the channel contract: the
configuration, the samples channel (capacity plus FIFO contents, head =
oldest) and the errors channel.  Device handles, mutexes and goroutine
bookkeeping are not modelled. -/
structure MalgoCapturer where
  config : CaptureConfig
  samplesCap : ℕ
  samples : List AudioSample
  errorsCap : ℕ
  errors : List String
deriving DecidableEq

/-- NewMalgoCapturer (internal/audio/buffer.go): both channels are
created with a hardcoded capacity of 10
(`samples: make(chan AudioSample, 10)` and `errors: make(chan error, 10)`);
the configured SampleBufferSize is not consulted. -/
def NewMalgoCapturer (config : CaptureConfig) : MalgoCapturer :=
  { config := config, samplesCap := 10, samples := [], errorsCap := 10, errors := [] }

/-- The overflow error message raised by the data callback. -/
def overflowMessage : String := "sample buffer overflow, dropping frames"

/-- The malgo data callback installed by MalgoCapturer.Start: copy the
input bytes into a fresh AudioSample and send it to the samples channel
non-blockingly (a `select` with a `default` arm); if the samples channel
is full, drop the incoming sample and send one overflow error to the
errors channel, itself non-blockingly (the signal is dropped in turn if
the errors channel is also full). -/
def dataCallback (m : MalgoCapturer) (pInputSamples : List ℕ) (framecount : ℕ) :
    MalgoCapturer :=
  if m.samples.length < m.samplesCap then
    { m with samples := m.samples ++ [{ Data := pInputSamples, Frames := framecount }] }
  else if m.errors.length < m.errorsCap then
    { m with errors := m.errors ++ [overflowMessage] }
  else m

/-- C1 (code bug): the claim says the samples channel capacity equals
the selected profile's SampleBufferSize (50/150/300 for the three
tiers), and the CaptureConfig documentation agrees ("SampleBufferSize is
the size of the channel buffer for audio samples"), but NewMalgoCapturer
creates the channel with hardcoded capacity 10 for every configuration,
so at each of the three reference tiers the created capacity differs
from the profile's SampleBufferSize. -/
theorem capturer_channel_capacity_bug :
    (∀ config : CaptureConfig, (NewMalgoCapturer config).samplesCap = 10) ∧
    DefaultConfig.SampleBufferSize = 50 ∧
    MediumModelConfig.SampleBufferSize = 150 ∧
    LargeModelConfig.SampleBufferSize = 300 ∧
    ((NewMalgoCapturer DefaultConfig).samplesCap : ℤ) ≠ DefaultConfig.SampleBufferSize ∧
    ((NewMalgoCapturer MediumModelConfig).samplesCap : ℤ) ≠ MediumModelConfig.SampleBufferSize ∧
    ((NewMalgoCapturer LargeModelConfig).samplesCap : ℤ) ≠ LargeModelConfig.SampleBufferSize :=
  ⟨fun _ => rfl, rfl, rfl, rfl, by decide, by decide, by decide⟩

/-- C5: pushing into a full samples channel never blocks the callback
and never disturbs the buffered frames: if the channel already holds
samplesCap frames, the callback leaves the samples list exactly as it
was (same frames, same FIFO order — the pushed, newest frame is the one
dropped) and raises exactly one counted overflow signal on the errors
channel (the signal itself being dropped only if the errors channel is
also full). -/
theorem full_channel_push (m : MalgoCapturer) (data : List ℕ) (fc : ℕ)
    (hfull : m.samples.length = m.samplesCap) :
    (dataCallback m data fc).samples = m.samples ∧
    (dataCallback m data fc).errors =
      (if m.errors.length < m.errorsCap then m.errors ++ [overflowMessage]
       else m.errors) ∧
    (dataCallback m data fc).samplesCap = m.samplesCap ∧
    (dataCallback m data fc).config = m.config := by
  simp only [dataCallback, if_neg (show ¬(m.samples.length < m.samplesCap) by omega)]
  by_cases hc : m.errors.length < m.errorsCap
  · simp [hc]
  · simp [hc]

/-- Witness capturer for `full_channel_push`: a fresh capturer at
DefaultConfig whose samples channel holds 10 buffered frames, its
capacity. -/
def fullCapturer : MalgoCapturer :=
  { NewMalgoCapturer DefaultConfig with
      samples := List.replicate 10 { Data := [], Frames := 0 } }

/-- Witness for `full_channel_push` at a concrete full capturer. -/
theorem full_channel_push_witness :
    fullCapturer.samples.length = fullCapturer.samplesCap ∧
    ((dataCallback fullCapturer [0, 64] 1).samples = fullCapturer.samples ∧
     (dataCallback fullCapturer [0, 64] 1).errors =
       (if fullCapturer.errors.length < fullCapturer.errorsCap then
          fullCapturer.errors ++ [overflowMessage]
        else fullCapturer.errors) ∧
     (dataCallback fullCapturer [0, 64] 1).samplesCap = fullCapturer.samplesCap ∧
     (dataCallback fullCapturer [0, 64] 1).config = fullCapturer.config) :=
  ⟨rfl, full_channel_push fullCapturer [0, 64] 1 rfl⟩

/-- RingBuffer (internal/audio/buffer.go): circular byte buffer.  The
backing slice is a list of bytes whose length is `size`; the two
positions are Go ints kept in [0, size) by the modulo updates. -/
structure RingBuffer where
  buffer : List ℕ
  size : ℕ
  writePos : ℕ
  readPos : ℕ
  full : Bool
deriving DecidableEq

/-- NewRingBuffer: zeroed backing slice of the given size. -/
def NewRingBuffer (size : ℕ) : RingBuffer :=
  { buffer := List.replicate size 0, size := size,
    writePos := 0, readPos := 0, full := false }

/-- The byte-copy loop inside RingBuffer.Write: store successive data
bytes at the write position (which advances modulo size), counting the
bytes written; when the write position catches up with the read
position, mark full and break.  Returns the updated backing slice, the
final write position, the number of bytes written, and the full flag. -/
def writeLoop : List ℕ → List ℕ → ℕ → ℕ → ℕ → List ℕ × ℕ × ℕ × Bool
  | [], buf, _, wp, _ => (buf, wp, 0, false)
  | b :: rest, buf, size, wp, rp =>
    if (wp + 1) % size = rp then (buf.set wp b, (wp + 1) % size, 1, true)
    else
      ((writeLoop rest (buf.set wp b) size ((wp + 1) % size) rp).1,
       (writeLoop rest (buf.set wp b) size ((wp + 1) % size) rp).2.1,
       (writeLoop rest (buf.set wp b) size ((wp + 1) % size) rp).2.2.1 + 1,
       (writeLoop rest (buf.set wp b) size ((wp + 1) % size) rp).2.2.2)

/-- RingBuffer.Write: when the buffer is already full, return 0 bytes
written and the error "buffer is full" without touching the state;
otherwise run the copy loop and return the number of bytes written with
a nil error (a partial write is not reported as an error). -/
def RingBuffer.Write (rb : RingBuffer) (data : List ℕ) :
    RingBuffer × ℕ × Option String :=
  if rb.full then (rb, 0, some "buffer is full")
  else
    ({ rb with buffer := (writeLoop data rb.buffer rb.size rb.writePos rb.readPos).1,
               writePos := (writeLoop data rb.buffer rb.size rb.writePos rb.readPos).2.1,
               full := (writeLoop data rb.buffer rb.size rb.writePos rb.readPos).2.2.2 },
     (writeLoop data rb.buffer rb.size rb.writePos rb.readPos).2.2.1, none)

/-- RingBuffer.Available: bytes available to read. -/
def RingBuffer.Available (rb : RingBuffer) : ℕ :=
  if rb.full then rb.size
  else if rb.readPos ≤ rb.writePos then rb.writePos - rb.readPos
  else rb.size - rb.readPos + rb.writePos

/-- RingBuffer.Free: bytes available to write. -/
def RingBuffer.Free (rb : RingBuffer) : ℕ :=
  if rb.full then 0 else rb.size - rb.Available

/-- On a non-full well-formed ring buffer the free count is between 1
and size, and advancing the write position by it lands exactly on the
read position. -/
theorem Free_spec (rb : RingBuffer) (hfull : rb.full = false)
    (hwp : rb.writePos < rb.size) (hrp : rb.readPos < rb.size) :
    1 ≤ rb.Free ∧ rb.Free ≤ rb.size ∧
    (rb.writePos + rb.Free) % rb.size = rb.readPos := by
  unfold RingBuffer.Free RingBuffer.Available
  rw [hfull]
  simp only [Bool.false_eq_true, if_false]
  by_cases hle : rb.readPos ≤ rb.writePos
  · rw [if_pos hle]
    refine ⟨by omega, by omega, ?_⟩
    rw [show rb.writePos + (rb.size - (rb.writePos - rb.readPos)) =
        rb.size + rb.readPos by omega]
    rw [Nat.add_mod_left]
    exact Nat.mod_eq_of_lt hrp
  · rw [if_neg hle]
    refine ⟨by omega, by omega, ?_⟩
    rw [show rb.writePos + (rb.size - (rb.size - rb.readPos + rb.writePos)) =
        rb.readPos by omega]
    exact Nat.mod_eq_of_lt hrp

/-- Characterization of the copy loop: if advancing the write position
by f (with 1 ≤ f ≤ size) reaches the read position, the loop writes
exactly min f (data length) bytes, reports full exactly when the data
reaches f bytes, and its effect on the slice and the write position is
that of writing just the first f bytes. -/
theorem writeLoop_spec (data : List ℕ) : ∀ (buf : List ℕ) (size wp rp f : ℕ),
    0 < size → wp < size → rp < size → buf.length = size → 1 ≤ f → f ≤ size →
    (wp + f) % size = rp →
    ((writeLoop data buf size wp rp).2.2.1 = min f data.length ∧
     (writeLoop data buf size wp rp).2.2.2 = decide (f ≤ data.length) ∧
     (writeLoop data buf size wp rp).1 = (writeLoop (data.take f) buf size wp rp).1 ∧
     (writeLoop data buf size wp rp).2.1 = (writeLoop (data.take f) buf size wp rp).2.1) := by
  induction data with
  | nil =>
    intro buf size wp rp f h0 hwp hrp hbuf hf1 hfs hmod
    have hnot : ¬(f ≤ 0) := by omega
    simp [writeLoop, hnot]
  | cons b rest ih =>
    intro buf size wp rp f h0 hwp hrp hbuf hf1 hfs hmod
    by_cases h1 : (wp + 1) % size = rp
    · have hf : f = 1 := by
        have e1 : (wp + f) % size = (wp + 1) % size := by rw [hmod, h1]
        have e2 : f % size = 1 % size := Nat.ModEq.add_left_cancel' wp e1
        rcases Nat.lt_or_ge f size with hlt | hge
        · rw [Nat.mod_eq_of_lt hlt] at e2
          rcases Nat.lt_or_ge 1 size with h2 | h2
          · rw [Nat.mod_eq_of_lt h2] at e2
            exact e2
          · omega
        · have hfe : f = size := by omega
          subst hfe
          rw [Nat.mod_self] at e2
          rcases Nat.lt_or_ge 1 f with h2 | h2
          · rw [Nat.mod_eq_of_lt h2] at e2
            omega
          · omega
      subst hf
      simp [writeLoop, h1]
    · have hf2 : 2 ≤ f := by
        by_contra hcon
        have : f = 1 := by omega
        subst this
        exact h1 hmod
      have hwp1 : (wp + 1) % size < size := Nat.mod_lt _ h0
      have hbuf1 : (buf.set wp b).length = size := by
        rw [List.length_set]
        exact hbuf
      have hmod1 : ((wp + 1) % size + (f - 1)) % size = rp := by
        rw [Nat.mod_add_mod]
        rw [show wp + 1 + (f - 1) = wp + f by omega]
        exact hmod
      have ihx := ih (buf.set wp b) size ((wp + 1) % size) rp (f - 1)
        h0 hwp1 hrp hbuf1 (by omega) (by omega) hmod1
      obtain ⟨ih1, ih2, ih3, ih4⟩ := ihx
      have htake : (b :: rest).take f = b :: rest.take (f - 1) := by
        rw [show f = (f - 1) + 1 by omega]
        rfl
      rw [htake]
      simp only [writeLoop, if_neg h1]
      refine ⟨?_, ?_, ?_, ?_⟩
      · rw [ih1]
        simp only [List.length_cons]
        omega
      · rw [ih2]
        have : (f - 1 ≤ rest.length) = (f ≤ rest.length + 1) := by
          apply propext
          omega
        simp only [List.length_cons, this]
      · exact ih3
      · exact ih4

/-- C10: RingBuffer.Write reports an error exactly when the buffer was
already full before the call.  On a non-full well-formed buffer the call
returns min(Free, len(data)) bytes written with a nil error; its effect
on the state equals that of writing only the first Free bytes (the rest
of the data is silently discarded, with no error at the interface); and
when the data is at least as long as the free space the buffer ends up
marked full. -/
theorem ringbuffer_write_truncation (rb : RingBuffer) (data : List ℕ)
    (hwf : rb.buffer.length = rb.size ∧ rb.writePos < rb.size ∧ rb.readPos < rb.size) :
    ((rb.Write data).2.2 ≠ none ↔ rb.full = true) ∧
    (rb.full = false →
      (rb.Write data).2.1 = min rb.Free data.length ∧ (rb.Write data).2.2 = none) ∧
    (rb.full = false →
      (rb.Write data).1 = (rb.Write (data.take rb.Free)).1) ∧
    (rb.full = false → rb.Free ≤ data.length → (rb.Write data).1.full = true) := by
  obtain ⟨hbuf, hwp, hrp⟩ := hwf
  have h0 : 0 < rb.size := by omega
  by_cases hfull : rb.full = true
  · refine ⟨?_, ?_, ?_, ?_⟩ <;> simp [RingBuffer.Write, hfull]
  · have hff : rb.full = false := by
      simpa using hfull
    obtain ⟨hge1, hles, hmod⟩ := Free_spec rb hff hwp hrp
    obtain ⟨s1, s2, s3, s4⟩ :=
      writeLoop_spec data rb.buffer rb.size rb.writePos rb.readPos rb.Free
        h0 hwp hrp hbuf hge1 hles hmod
    obtain ⟨t1, t2, t3, t4⟩ :=
      writeLoop_spec (data.take rb.Free) rb.buffer rb.size rb.writePos rb.readPos rb.Free
        h0 hwp hrp hbuf hge1 hles hmod
    have hflag : (writeLoop data rb.buffer rb.size rb.writePos rb.readPos).2.2.2 =
        (writeLoop (data.take rb.Free) rb.buffer rb.size rb.writePos rb.readPos).2.2.2 := by
      rw [s2, t2]
      congr 1
      apply propext
      rw [List.length_take]
      omega
    refine ⟨?_, ?_, ?_, ?_⟩
    · simp [RingBuffer.Write, hff]
    · intro _
      refine ⟨?_, ?_⟩
      · simp only [RingBuffer.Write, hff, Bool.false_eq_true, if_false]
        exact s1
      · simp [RingBuffer.Write, hff]
    · intro _
      simp only [RingBuffer.Write, hff, Bool.false_eq_true, if_false]
      rw [s3, s4, hflag]
    · intro _ hlen
      simp only [RingBuffer.Write, hff, Bool.false_eq_true, if_false]
      rw [s2]
      simp [hlen]

/-- Witness for `ringbuffer_write_truncation`: a fresh two-byte ring
buffer written with three bytes (free space 2 < 3). -/
theorem ringbuffer_write_truncation_witness :
    ((NewRingBuffer 2).buffer.length = (NewRingBuffer 2).size ∧
     (NewRingBuffer 2).writePos < (NewRingBuffer 2).size ∧
     (NewRingBuffer 2).readPos < (NewRingBuffer 2).size) ∧
    ((((NewRingBuffer 2).Write [7, 8, 9]).2.2 ≠ none ↔ (NewRingBuffer 2).full = true) ∧
     ((NewRingBuffer 2).full = false →
       ((NewRingBuffer 2).Write [7, 8, 9]).2.1 =
         min (NewRingBuffer 2).Free ([7, 8, 9] : List ℕ).length ∧
       ((NewRingBuffer 2).Write [7, 8, 9]).2.2 = none) ∧
     ((NewRingBuffer 2).full = false →
       ((NewRingBuffer 2).Write [7, 8, 9]).1 =
         ((NewRingBuffer 2).Write (([7, 8, 9] : List ℕ).take (NewRingBuffer 2).Free)).1) ∧
     ((NewRingBuffer 2).full = false →
       (NewRingBuffer 2).Free ≤ ([7, 8, 9] : List ℕ).length →
       ((NewRingBuffer 2).Write [7, 8, 9]).1.full = true)) :=
  ⟨⟨rfl, by decide, by decide⟩,
    ringbuffer_write_truncation (NewRingBuffer 2) [7, 8, 9] ⟨rfl, by decide, by decide⟩⟩

/-- stt.Result as consumed by the orchestrators: recognized text, the
partial flag, and the confidence (float64, modelled as ℚ).  The unused
Alternatives field is not modelled. -/
structure SttResult where
  Text : String
  Partial : Bool
  Confidence : ℚ
deriving DecidableEq

/-- Reply of one engine.ProcessAudio call, supplied by the engine
oracle: the call either fails with an error or succeeds with an optional
result (the Go signature returns (*stt.Result, error) and the
orchestrator checks the pointer for nil). -/
inductive PAReply where
  | failure
  | success (result : Option SttResult)
deriving DecidableEq

/-- Reply of one engine.FinalResult call: an error or a result. -/
inductive FRReply where
  | failure
  | success (result : SttResult)
deriving DecidableEq

/-- Observable sink events emitted by the continuous loop: the two VAD
status events, numbered final transcripts, partial updates, and the
reported recognizer error. -/
inductive Event where
  | speechDetected
  | silenceFinalizing
  | finalTranscript (index : ℕ) (text : String) (confidence : ℚ)
  | partialUpdate (text : String)
  | sttError
deriving DecidableEq

/-- Orchestrator state tracked across frames by Transcriber.Run: the
optional VAD (none when VAD is disabled), the last emitted partial text,
and the session-scoped transcript counter. -/
structure TranscriberState where
  vad : Option VAD
  lastPartialText : String
  transcriptionCount : ℕ
deriving DecidableEq

/-- One frame of input to the consumer loop: the sample bytes plus the
engine oracle's replies for the ProcessAudio call (and the FinalResult
call, consulted only if the VAD ends an utterance on this frame). -/
structure FrameInput where
  data : List ℕ
  paReply : PAReply
  frReply : FRReply
deriving DecidableEq

/-- Result of processing a single frame: the successor state, the
events emitted for this frame, and whether engine.ProcessAudio was
invoked. -/
structure StepResult where
  state : TranscriberState
  events : List Event
  calledProcessAudio : Bool
deriving DecidableEq

/-- The speech-start event emitted when ProcessFrame reports
speechStarted. -/
def startEvents (out : VADOutput) : List Event :=
  if out.speechStarted = true then [Event.speechDetected] else []

/-- Events emitted by the speech-end branch: the final transcript is
emitted only when FinalResult succeeds with non-empty text (an error
from FinalResult is silently skipped by the `err == nil &&` guard). -/
def finalizeEvents (count : ℕ) (fr : FRReply) : List Event :=
  match fr with
  | .failure => []
  | .success r =>
    if r.Text ≠ "" then [Event.finalTranscript (count + 1) r.Text r.Confidence] else []

/-- Transcript counter after the speech-end branch: incremented exactly
when a non-empty final text is emitted. -/
def finalizeCount (count : ℕ) (fr : FRReply) : ℕ :=
  match fr with
  | .failure => count
  | .success r => if r.Text ≠ "" then count + 1 else count

/-- The recognizer-processing tail of the loop body (the code after the
VAD gate): call ProcessAudio; on error report it and continue; on a nil
result continue; on a partial result with new non-empty text emit a
partial update; on a final result with non-empty text emit a numbered
transcript and clear the tracked partial.  The two Go `if` statements
are exclusive because one tests result.Partial and the other its
negation.  `vad1` is the already-updated VAD and `pre` the events
emitted before this phase. -/
def processAudioPhase (s : TranscriberState) (vad1 : Option VAD) (pre : List Event)
    (f : FrameInput) : StepResult :=
  match f.paReply with
  | .failure =>
    { state := { s with vad := vad1 }, events := pre ++ [Event.sttError],
      calledProcessAudio := true }
  | .success none =>
    { state := { s with vad := vad1 }, events := pre, calledProcessAudio := true }
  | .success (some r) =>
    if r.Partial = true ∧ r.Text ≠ "" ∧ r.Text ≠ s.lastPartialText then
      { state := { s with vad := vad1, lastPartialText := r.Text },
        events := pre ++ [Event.partialUpdate r.Text], calledProcessAudio := true }
    else if r.Partial = false ∧ r.Text ≠ "" then
      { state := { vad := vad1, lastPartialText := "",
                   transcriptionCount := s.transcriptionCount + 1 },
        events := pre ++ [Event.finalTranscript (s.transcriptionCount + 1) r.Text r.Confidence],
        calledProcessAudio := true }
    else
      { state := { s with vad := vad1 }, events := pre, calledProcessAudio := true }

/-- The per-frame body of Transcriber.Run's consumer loop (continuous
mode).  With VAD enabled: run ProcessFrame; emit the speech-start event
if reported; on speech end emit the finalizing event, take FinalResult
(emitting a numbered transcript when non-empty), reset the engine, clear
the tracked partial and continue to the next frame without calling
ProcessAudio; if not currently speaking skip recognizer processing
entirely.  Otherwise (VAD disabled, or speech active) run the
recognizer-processing phase. -/
def transcriberStep (s : TranscriberState) (f : FrameInput) : StepResult :=
  match s.vad with
  | none => processAudioPhase s none [] f
  | some v =>
    if (v.ProcessFrame f.data).2.speechEnded = true then
      { state := { vad := some (v.ProcessFrame f.data).1, lastPartialText := "",
                   transcriptionCount := finalizeCount s.transcriptionCount f.frReply },
        events := startEvents (v.ProcessFrame f.data).2 ++ [Event.silenceFinalizing] ++
          finalizeEvents s.transcriptionCount f.frReply,
        calledProcessAudio := false }
    else if (v.ProcessFrame f.data).2.isSpeakingNow = false then
      { state := { s with vad := some (v.ProcessFrame f.data).1 },
        events := startEvents (v.ProcessFrame f.data).2,
        calledProcessAudio := false }
    else
      processAudioPhase s (some (v.ProcessFrame f.data).1)
        (startEvents (v.ProcessFrame f.data).2) f

/-- The consumer loop over a finite frame sequence: every received frame
is processed by `transcriberStep`, and each frame contributes one
(events, calledProcessAudio) observation. -/
def runTranscriber (s : TranscriberState) :
    List FrameInput → TranscriberState × List (List Event × Bool)
  | [] => (s, [])
  | f :: rest =>
    ((runTranscriber (transcriberStep s f).state rest).1,
     ((transcriberStep s f).events, (transcriberStep s f).calledProcessAudio) ::
       (runTranscriber (transcriberStep s f).state rest).2)

/-- C6: in continuous mode with VAD enabled, engine.ProcessAudio is
invoked only for frames on which the VAD reports isSpeakingNow = true —
a frame processed while not speaking, or one that ends the utterance, is
never passed to the recognizer. -/
theorem vad_gates_recognizer (s : TranscriberState) (v : VAD) (f : FrameInput)
    (hv : s.vad = some v)
    (hcall : (transcriberStep s f).calledProcessAudio = true) :
    (v.ProcessFrame f.data).2.isSpeakingNow = true ∧
    (v.ProcessFrame f.data).2.speechEnded = false := by
  obtain ⟨svad, slp, stc⟩ := s
  simp only at hv
  subst hv
  simp only [transcriberStep] at hcall
  split at hcall
  · simp at hcall
  · rename_i h1
    split at hcall
    · simp at hcall
    · rename_i h2
      exact ⟨by simpa using h2, by simpa using h1⟩

/-- Configuration whose negative threshold classifies every frame
(including an empty one) as speech, with both hysteresis bounds 1. -/
def cfgAlwaysSpeech : VADConfig :=
  { EnergyThreshold := -1, SilenceFrames := 1, SpeechFrames := 1 }

/-- Witness state for the gating theorems: VAD enabled and fresh. -/
def gateState : TranscriberState :=
  { vad := some (NewVAD cfgAlwaysSpeech), lastPartialText := "", transcriptionCount := 0 }

/-- Witness frame whose ProcessAudio reply is a nil result. -/
def gateFrame : FrameInput :=
  { data := [], paReply := PAReply.success none, frReply := FRReply.failure }

/-- Witness for `vad_gates_recognizer`: at the always-speech
configuration the first frame starts speech, ProcessAudio is called, and
the VAD indeed reports isSpeakingNow. -/
theorem vad_gates_recognizer_witness :
    gateState.vad = some (NewVAD cfgAlwaysSpeech) ∧
    (transcriberStep gateState gateFrame).calledProcessAudio = true ∧
    (((NewVAD cfgAlwaysSpeech).ProcessFrame gateFrame.data).2.isSpeakingNow = true ∧
     ((NewVAD cfgAlwaysSpeech).ProcessFrame gateFrame.data).2.speechEnded = false) :=
  ⟨rfl, rfl, vad_gates_recognizer gateState (NewVAD cfgAlwaysSpeech) gateFrame rfl rfl⟩

/-- Chunk count of PTTTranscriber.transcribe's replay loop
(`for i := 0; i < len(p.audioBuffer); i += chunkSize` with
chunkSize = 480 * 2 bytes): the number of ProcessAudio calls attempted
on a fully successful replay. -/
def countChunks (len : ℕ) : ℕ := (len + 959) / 960

/-- The replay loop of PTTTranscriber.transcribe over n chunks, driven
by the engine oracle `pa` (reply to the i-th ProcessAudio call): returns
(number of ProcessAudio calls made, whether a call failed).  On the
first failing call the loop returns the error immediately — no further
chunk is processed. -/
def pttReplay (pa : ℕ → PAReply) : ℕ → ℕ × Bool
  | 0 => (0, false)
  | n + 1 =>
    if (pttReplay pa n).2 then pttReplay pa n
    else
      match pa n with
      | .failure => ((pttReplay pa n).1 + 1, true)
      | .success _ => ((pttReplay pa n).1 + 1, false)

theorem pttReplay_ok (pa : ℕ → PAReply) :
    ∀ n, (∀ j, j < n → pa j ≠ PAReply.failure) → pttReplay pa n = (n, false) := by
  intro n
  induction n with
  | zero => intro _; rfl
  | succ n ih =>
    intro h
    have hn := ih fun j hj => h j (by omega)
    cases hpan : pa n with
    | failure => exact absurd hpan (h n (by omega))
    | success r => simp [pttReplay, hn, hpan]

/-- PTTTranscriber.transcribe: replay the accumulated buffer through
ProcessAudio in 960-byte chunks; if any call fails, return the error at
once (remaining chunks unprocessed, FinalResult not taken); otherwise
take FinalResult and return its text (none models the error return). -/
def pttTranscribe (audioBuffer : List ℕ) (pa : ℕ → PAReply) (fr : FRReply) :
    Option String :=
  if (pttReplay pa (countChunks audioBuffer.length)).2 then none
  else
    match fr with
    | .failure => none
    | .success r => some r.Text

/-- Outcome of one toggle-to-idle in PTTTranscriber.Run: a numbered
transcript, the distinct "no speech detected" report, the distinct
"no audio recorded" report, or a reported transcription error. -/
inductive PTTOutcome where
  | transcript (index : ℕ) (text : String)
  | noSpeech
  | noAudio
  | transcriptionError
deriving DecidableEq

/-- The toggle-to-idle handler of PTTTranscriber.Run: if the session
buffer is non-empty, transcribe it — reporting an error, a numbered
transcript (incrementing the counter) for non-empty text, or "no speech
detected" for empty text; an empty buffer reports "no audio recorded".
Returns the outcome and the updated transcript counter; in every case
the outer loop continues waiting for the next toggle. -/
def pttToggleStop (audioBuffer : List ℕ) (pa : ℕ → PAReply) (fr : FRReply)
    (transcriptCount : ℕ) : PTTOutcome × ℕ :=
  if 0 < audioBuffer.length then
    match pttTranscribe audioBuffer pa fr with
    | none => (PTTOutcome.transcriptionError, transcriptCount)
    | some text =>
      if text ≠ "" then (PTTOutcome.transcript (transcriptCount + 1) text, transcriptCount + 1)
      else (PTTOutcome.noSpeech, transcriptCount)
  else (PTTOutcome.noAudio, transcriptCount)

/-- C7 amended: a failing ProcessAudio call never terminates the
session in either variant.  Continuous mode: when ProcessAudio is
called and fails, the error is reported as an event and the loop
continues with the next frame — the transcript counter and tracked
partial are untouched — and the loop processes every frame of any
sequence (one observation per frame, no early exit).  Push-to-talk
mode: a ProcessAudio failure aborts the current replay immediately
after the failing call (exactly i+1 calls are made when call i is the
first to fail, so later chunks are not processed), and the toggle
handler reports a transcription error with the transcript counter
unchanged while the outer session continues. -/
theorem processaudio_error_nonfatal :
    (∀ (s : TranscriberState) (f : FrameInput), f.paReply = PAReply.failure →
      (transcriberStep s f).calledProcessAudio = true →
      (Event.sttError ∈ (transcriberStep s f).events ∧
       (transcriberStep s f).state.transcriptionCount = s.transcriptionCount ∧
       (transcriberStep s f).state.lastPartialText = s.lastPartialText)) ∧
    (∀ (s : TranscriberState) (frames : List FrameInput),
      (runTranscriber s frames).2.length = frames.length) ∧
    (∀ (pa : ℕ → PAReply) (i : ℕ), pa i = PAReply.failure →
      (∀ j, j < i → pa j ≠ PAReply.failure) →
      ∀ n, i < n → pttReplay pa n = (i + 1, true)) ∧
    (∀ (audioBuffer : List ℕ) (pa : ℕ → PAReply) (fr : FRReply) (count : ℕ),
      audioBuffer ≠ [] → pttTranscribe audioBuffer pa fr = none →
      pttToggleStop audioBuffer pa fr count = (PTTOutcome.transcriptionError, count)) := by
  refine ⟨?_, ?_, ?_, ?_⟩
  · intro s f hpa hcall
    obtain ⟨svad, slp, stc⟩ := s
    cases svad with
    | none => simp [transcriberStep, processAudioPhase, hpa]
    | some v =>
      by_cases hend : (v.ProcessFrame f.data).2.speechEnded = true
      · exfalso
        simp only [transcriberStep] at hcall
        rw [if_pos hend] at hcall
        simp at hcall
      · by_cases hsp : (v.ProcessFrame f.data).2.isSpeakingNow = false
        · exfalso
          simp only [transcriberStep] at hcall
          rw [if_neg hend, if_pos hsp] at hcall
          simp at hcall
        · have hstep : transcriberStep ⟨some v, slp, stc⟩ f =
              processAudioPhase ⟨some v, slp, stc⟩ (some (v.ProcessFrame f.data).1)
                (startEvents (v.ProcessFrame f.data).2) f := by
            simp only [transcriberStep]
            rw [if_neg hend, if_neg hsp]
          rw [hstep]
          simp [processAudioPhase, hpa]
  · intro s frames
    induction frames generalizing s with
    | nil => rfl
    | cons f rest ih => simp [runTranscriber, ih]
  · intro pa i hpi hprev n
    induction n with
    | zero => exact fun h => absurd h (by omega)
    | succ n ih =>
      intro hin
      rcases Nat.lt_or_ge i n with h | h
      · have hx := ih h
        simp [pttReplay, hx]
      · have hi : i = n := by omega
        subst hi
        have hok := pttReplay_ok pa i hprev
        simp [pttReplay, hok, hpi]
  · intro audioBuffer pa fr count hne htr
    have hlen : 0 < audioBuffer.length := List.length_pos.mpr hne
    simp [pttToggleStop, hlen, htr]

/-- Witness state for `processaudio_error_nonfatal`: VAD disabled. -/
def errState : TranscriberState :=
  { vad := none, lastPartialText := "", transcriptionCount := 0 }

/-- Witness frame whose ProcessAudio reply is a failure. -/
def errFrame : FrameInput :=
  { data := [], paReply := PAReply.failure, frReply := FRReply.failure }

/-- Witness for `processaudio_error_nonfatal`: a failing ProcessAudio
call with VAD disabled reports the error and leaves counter and partial
untouched. -/
theorem processaudio_error_nonfatal_witness :
    Event.sttError ∈ (transcriberStep errState errFrame).events ∧
    (transcriberStep errState errFrame).state.transcriptionCount =
      errState.transcriptionCount ∧
    (transcriberStep errState errFrame).state.lastPartialText =
      errState.lastPartialText :=
  processaudio_error_nonfatal.1 errState errFrame rfl rfl

/-- Counterexample to C7 as stated: a 1920-byte push-to-talk buffer
spans two chunks, yet when the first ProcessAudio call fails the replay
makes exactly one call — it does not continue with the next chunk (and
FinalResult is never taken, the whole replay returning the error). -/
theorem processaudio_error_counterexample :
    countChunks (List.replicate 1920 0 : List ℕ).length = 2 ∧
    pttReplay (fun _ => PAReply.failure) 2 = (1, true) ∧
    (pttReplay (fun _ => PAReply.failure) 2).1 ≠ 2 ∧
    pttTranscribe (List.replicate 1920 0) (fun _ => PAReply.failure)
      (FRReply.success { Text := "hello", Partial := false, Confidence := 1 }) = none := by
  have hl : (List.replicate 1920 (0 : ℕ)).length = 1920 := by
    rw [List.length_replicate]
  have hc : countChunks 1920 = 2 := by norm_num [countChunks]
  refine ⟨by rw [hl, hc], rfl, by decide, ?_⟩
  simp only [pttTranscribe, hl, hc]
  rw [if_pos (show (pttReplay (fun _ => PAReply.failure) 2).2 = true from rfl)]

/-- C8: outcome distinction of a toggle-to-idle in push-to-talk mode —
an empty accumulated buffer yields the distinct "no audio recorded"
report (not an error, no transcript, counter unchanged); a non-empty
buffer whose final recognition text is empty yields the distinct
"no speech detected" report (counter unchanged); a numbered transcript
(index = previous counter + 1) is emitted exactly when the final text is
non-empty. -/
theorem ptt_outcome_distinction (audioBuffer : List ℕ) (pa : ℕ → PAReply)
    (fr : FRReply) (count : ℕ) :
    (audioBuffer = [] →
      pttToggleStop audioBuffer pa fr count = (PTTOutcome.noAudio, count)) ∧
    (audioBuffer ≠ [] → pttTranscribe audioBuffer pa fr = some "" →
      pttToggleStop audioBuffer pa fr count = (PTTOutcome.noSpeech, count)) ∧
    (∀ text, audioBuffer ≠ [] → text ≠ "" →
      pttTranscribe audioBuffer pa fr = some text →
      pttToggleStop audioBuffer pa fr count =
        (PTTOutcome.transcript (count + 1) text, count + 1)) ∧
    (∀ idx text, (pttToggleStop audioBuffer pa fr count).1 =
        PTTOutcome.transcript idx text → (text ≠ "" ∧ idx = count + 1)) := by
  refine ⟨?_, ?_, ?_, ?_⟩
  · intro he
    subst he
    rfl
  · intro hne htr
    have hlen : 0 < audioBuffer.length := List.length_pos.mpr hne
    simp [pttToggleStop, hlen, htr]
  · intro text hne htext htr
    have hlen : 0 < audioBuffer.length := List.length_pos.mpr hne
    simp [pttToggleStop, hlen, htr, htext]
  · intro idx text hout
    by_cases hlen : 0 < audioBuffer.length
    · simp only [pttToggleStop, if_pos hlen] at hout
      cases htr : pttTranscribe audioBuffer pa fr with
      | none => rw [htr] at hout; simp at hout
      | some t =>
        simp only [htr] at hout
        by_cases ht : t ≠ ""
        · rw [if_pos ht] at hout
          simp at hout
          obtain ⟨h1, h2⟩ := hout
          exact ⟨h2 ▸ ht, h1.symm⟩
        · rw [if_neg ht] at hout
          simp at hout
    · simp only [pttToggleStop, if_neg hlen] at hout
      simp at hout

/-- Witness for `ptt_outcome_distinction`: an empty buffer yields the
"no audio recorded" outcome with the counter unchanged. -/
theorem ptt_outcome_distinction_witness :
    pttToggleStop [] (fun _ => PAReply.failure) FRReply.failure 0 =
      (PTTOutcome.noAudio, 0) :=
  (ptt_outcome_distinction [] (fun _ => PAReply.failure) FRReply.failure 0).1 rfl

/-- Witness for `vad_threshold_strict`: the frame [0, 64] has RMS energy
exactly 1/2, and at threshold 1/2 it is classified as silence. -/
theorem vad_threshold_strict_witness :
    (((1:ℚ)/2 : ℚ) : ℝ) = Real.sqrt ((energySq [0, 64] : ℚ) : ℝ) ∧
    frameHasSpeech [0, 64] (1/2) = false := by
  have he : energySq [0, 64] = 1/4 := by
    simp [energySq, samplesOf, toInt16]
    norm_num
  have h : (((1:ℚ)/2 : ℚ) : ℝ) = Real.sqrt ((energySq [0, 64] : ℚ) : ℝ) := by
    rw [he]
    push_cast
    rw [show (1/4 : ℝ) = (1/2 : ℝ)^2 by norm_num,
      Real.sqrt_sq (by norm_num : (0:ℝ) ≤ 1/2)]
  exact ⟨h, (vad_threshold_strict [0, 64] (1/2)).2 h⟩
